import Mathlib

/-!
Shallow embedding of the simeis space-economy simulation core
(simeis-data: errors, crew, syslog FIFO, market, cargo, galaxy geometry,
navigation, ship, station, player, and the per-tick driver loop of
Game::threadloop), written to check the natural-language specification
against the source.

Modelling conventions:
* Rust f64 values are modelled as real numbers (exact arithmetic).
* Values drawn from the RNG (market drift samples, price-impact factors,
  freshly generated shipyard ships) are passed as explicit parameters.
* BTreeMap fields that the claims look up pointwise are modelled as
  functions into Option.
* Fallible operations return Except Errcode.
-/

namespace Simeis

/-- Error codes of the core, from src/errors.rs (enum Errcode).  String and
id payloads that no claim inspects are kept with simplified types. -/
inductive Errcode where
  | NoPlayerKey
  | PlayerNotFound (id : Nat)
  | PlayerAlreadyExists (id : Nat) (name : String)
  | NoPlayerWithKey
  | ShipNotFound (id : Nat)
  | NotEnoughMoney (got : Real) (need : Real)
  | InvalidArgument (arg : String)
  | ShipNotExtracting
  | ShipNotIdle
  | CrewMemberNotIdle (id : Nat)
  | CrewNotNeeded
  | CannotPerformTravel
  | NullDistance
  | NoSuchStation (id : Nat)
  | NoSuchModule (id : Nat)
  | CannotExtractWithoutPlanet
  | ShipNotInStation
  | WrongCrewType
  | CargoFull
  | NoTraderAssigned
  | NoPilotAssigned
  | BuyNothing
  | SellNothing
  | NoFuelInCargo
  | NoHullPlateInCargo
  | CrewMemberNotFound (id : Nat)
  | PlayerLost

/-- Crew member types, from src/crew.rs (enum CrewMemberType). -/
inductive CrewMemberType where
  | Pilot
  | Operator
  | Trader
  | Soldier
deriving DecidableEq

/-- A crew member, from src/crew.rs (struct CrewMember): a type and a rank
(u8, modelled as Nat). -/
structure CrewMember where
  member_type : CrewMemberType
  rank : Nat
deriving DecidableEq

/-- The resource catalog, from src/ship/resources.rs (enum Resource). -/
inductive Resource where
  | Stone
  | Iron
  | Helium
  | Ozone
  | Fuel
  | HullPlate
deriving DecidableEq

/-- Base price of a resource, from Resource::base_price. -/
def Resource.base_price : Resource → Real
  | .Stone => 3.5
  | .Helium => 3.5
  | .Iron => 7.0
  | .Ozone => 7.0
  | .Fuel => 5.0
  | .HullPlate => 3.5

/-- Cargo volume of one unit of a resource, from Resource::volume. -/
def Resource.volume : Resource → Real
  | .Stone => 0.85
  | .Helium => 0.85
  | .Iron => 0.3
  | .Ozone => 0.3
  | .Fuel => 2.0
  | .HullPlate => 0.05

/-- Events delivered to the per-player FIFO, from src/syslog.rs
(enum SyslogEvent).  The UnloadedNothing cargo snapshots and the exact
Duration payload of LowFunds are irrelevant to the claims; LowFunds keeps
its seconds value as a real number. -/
inductive SyslogEvent where
  | Placeholder
  | GameStarted
  | GameLost
  | ShipDestroyed (id : Nat)
  | ShipFlightFinished (id : Nat)
  | ExtractionStopped (id : Nat)
  | UnloadedNothing
  | LowFunds (secs : Real)

/-- Capacity of the per-player event ring buffer, from src/syslog.rs
(SYSLOG_FIFO_MAX_SIZE). -/
def SYSLOG_FIFO_MAX_SIZE : Nat := 10

/-- The bounded ring buffer of events, from src/syslog.rs (struct Fifo).
The fixed-size array of 10 options is modelled as a list of length 10. -/
structure Fifo (T : Type) where
  list : List (Option T)
  push_ind : Nat
  pop_ind : Nat
  len : Nat

/-- Fresh empty FIFO, from Fifo::new. -/
def Fifo.new (T : Type) : Fifo T :=
  { len := 0
    push_ind := 0
    pop_ind := 0
    list := List.replicate SYSLOG_FIFO_MAX_SIZE none }

/-- Push one element, from Fifo::push: when the buffer is full the oldest
slot is advanced past (overwritten), the element is stored at push_ind, and
len saturates at the capacity. -/
def Fifo.push (f : Fifo T) (data : T) : Fifo T :=
  let pop_ind :=
    if 0 < f.len ∧ f.push_ind = f.pop_ind
    then (f.pop_ind + 1) % SYSLOG_FIFO_MAX_SIZE
    else f.pop_ind
  { list := f.list.set f.push_ind (some data)
    push_ind := (f.push_ind + 1) % SYSLOG_FIFO_MAX_SIZE
    pop_ind := pop_ind
    len := min (f.len + 1) SYSLOG_FIFO_MAX_SIZE }

/-- Pop the oldest element, from Fifo::pop: take (and clear) the slot at
pop_ind when the buffer is non-empty. -/
def Fifo.pop (f : Fifo T) : Option T × Fifo T :=
  if f.len = 0 then (none, f)
  else
    (f.list[f.pop_ind]?.join,
     { list := f.list.set f.pop_ind none
       push_ind := f.push_ind
       pop_ind := (f.pop_ind + 1) % SYSLOG_FIFO_MAX_SIZE
       len := f.len - 1 })

/-- Drain loop of Fifo::remove_all, with explicit fuel.  Every pop on a
non-empty buffer decrements len by exactly one, so the Rust while loop runs
exactly len times; popped None slots are skipped, as in the source. -/
def Fifo.removeAllAux : Nat → Fifo T → List T × Fifo T
  | 0, f => ([], f)
  | n + 1, f =>
    let (got, f1) := f.pop
    let (rest, f2) := Fifo.removeAllAux n f1
    match got with
    | some x => (x :: rest, f2)
    | none => (rest, f2)

/-- Drain the buffer, from Fifo::remove_all: returns the current contents
oldest-first and leaves the buffer empty. -/
def Fifo.remove_all (f : Fifo T) : List T × Fifo T :=
  Fifo.removeAllAux f.len f

/-- Push a whole list of events in order, oldest first (a sequence of
Fifo::push calls). -/
def Fifo.pushAll (f : Fifo T) (l : List T) : Fifo T :=
  l.foldl Fifo.push f

/-- Abstract model of one push: append the new entry, dropping the oldest
entry when the buffer already holds 10. -/
def modelPush (l : List T) (x : T) : List T :=
  if l.length < SYSLOG_FIFO_MAX_SIZE then l ++ [x] else l.tail ++ [x]

/-- Representation invariant tying a concrete ring buffer to the list of
its live entries, oldest first: the backing array has length 10, the read
index is in range, len matches the abstract list (at most 10), the write
index sits len slots after the read index modulo 10, and slot
(pop_ind + i) mod 10 holds the i-th live entry. -/
def Fifo.Rep (f : Fifo T) (l : List T) : Prop :=
  f.list.length = SYSLOG_FIFO_MAX_SIZE ∧
  f.pop_ind < SYSLOG_FIFO_MAX_SIZE ∧
  f.len = l.length ∧
  l.length ≤ SYSLOG_FIFO_MAX_SIZE ∧
  f.push_ind = (f.pop_ind + f.len) % SYSLOG_FIFO_MAX_SIZE ∧
  ∀ i, i < l.length → f.list[(f.pop_ind + i) % SYSLOG_FIFO_MAX_SIZE]? = some l[i]?

noncomputable section

open scoped Classical

/-- Integer coordinate of a point in the galaxy, from src/galaxy.rs
(SpaceCoord = (u32, u32, u32), modelled as a triple of Nat). -/
abbrev SpaceCoord := Nat × Nat × Nat

/-- Componentwise f64 difference of two coordinates, from galaxy.rs
(fn get_delta). -/
def get_delta (a b : SpaceCoord) : Real × Real × Real :=
  ((b.1 : Real) - (a.1 : Real),
   (b.2.1 : Real) - (a.2.1 : Real),
   (b.2.2 : Real) - (a.2.2 : Real))

/-- Euclidean distance between two coordinates, from galaxy.rs
(fn get_distance); powf(2.0) is the real power function. -/
def get_distance (a b : SpaceCoord) : Real :=
  Real.sqrt ((get_delta a b).1 ^ (2 : Real) + (get_delta a b).2.1 ^ (2 : Real) +
    (get_delta a b).2.2 ^ (2 : Real))

/-- Unit direction vector from a to b, from galaxy.rs (fn get_direction). -/
def get_direction (a b : SpaceCoord) : Real × Real × Real :=
  ((get_delta a b).1 / get_distance a b,
   (get_delta a b).2.1 / get_distance a b,
   (get_delta a b).2.2 / get_distance a b)

/-- Move dist units from start along direction and truncate back to integer
coordinates, from galaxy.rs (fn translation).  The Rust cast (as u32)
truncates toward zero and maps negatives to zero, which on the values at
hand is Int.floor followed by Int.toNat. -/
def translation (start : SpaceCoord) (direction : Real × Real × Real) (dist : Real) :
    SpaceCoord :=
  ((Int.floor ((start.1 : Real) + dist * direction.1)).toNat,
   (Int.floor ((start.2.1 : Real) + dist * direction.2.1)).toNat,
   (Int.floor ((start.2.2 : Real) + dist * direction.2.2)).toNat)

/-- Derived performance statistics of a ship, from src/ship/shipstats.rs
(struct ShipStats, f64 fields, Default = all zero). -/
structure ShipStats where
  speed : Real
  fuel_consumption : Real
  hull_usage_rate : Real

instance : Inhabited ShipStats := ⟨⟨0, 0, 0⟩⟩

/-- Ship module types, from src/ship/module.rs (enum ShipModuleType). -/
inductive ShipModuleType where
  | Miner
  | GasSucker

/-- A ship module, from src/ship/module.rs (struct ShipModule).  Only
totalcost is read by the verified claims (ship pricing). -/
structure ShipModule where
  operator : Option Nat
  modtype : ShipModuleType
  rank : Nat
  totalcost : Real

/-- Multi-resource cargo hold, from src/ship/cargo.rs (struct ShipCargo).
The BTreeMap of stocks is modelled as a function into Option. -/
structure ShipCargo where
  capacity : Real
  usage : Real
  resources : Resource → Option Real

/-- Fresh cargo hold of a given capacity, from ShipCargo::with_capacity. -/
def ShipCargo.with_capacity (cap : Real) : ShipCargo :=
  { usage := 0, capacity := cap, resources := fun _ => none }

/-- Reserved slowdown hook, from ShipCargo::slowing_ratio (currently 0). -/
def ShipCargo.slowing_ratio (_c : ShipCargo) : Real := 0

/-- Deposit amnt units of res, truncated to the remaining capacity prorated
by volume, from ShipCargo::add_resource.  Returns the actually added
quantity together with the new cargo state. -/
def ShipCargo.add_resource (c : ShipCargo) (res : Resource) (amnt : Real) :
    Real × ShipCargo :=
  let added := res.volume * amnt
  if c.usage = c.capacity then (0, c)
  else
    let (amnt2, usage2) :=
      if c.usage + added > c.capacity then
        let overflow := c.usage + added - c.capacity
        (amnt - overflow / res.volume, c.capacity)
      else (amnt, c.usage + added)
    (amnt2,
     { capacity := c.capacity
       usage := usage2
       resources := fun r =>
         if r = res then
           match c.resources res with
           | some stock => some (stock + amnt2)
           | none => some amnt2
         else c.resources r })

/-- Whether the hold is exactly full, from ShipCargo::is_full. -/
def ShipCargo.is_full (c : ShipCargo) : Prop := c.usage = c.capacity

/-- Withdraw up to amnt units of a resource, from ShipCargo::unload.  The
usage is clamped at zero and then rounded to three decimal places
(f64 round is half away from zero, which on the non-negative values at
hand agrees with Mathlib round).  Returns the removed quantity and the new
cargo state; an absent stock entry returns zero and leaves the hold
untouched. -/
def ShipCargo.unload (c : ShipCargo) (resource : Resource) (amnt : Real) :
    Real × ShipCargo :=
  match c.resources resource with
  | some got =>
    let unload := min got amnt
    let usage1 := max (c.usage - resource.volume * unload) 0
    let usage2 := (round (usage1 * 1000) : Real) / 1000
    (unload,
     { capacity := c.capacity
       usage := usage2
       resources := fun r => if r = resource then some (got - unload) else c.resources r })
  | none => (0, c)

/-- Remaining room of the hold measured in units of a resource, from
ShipCargo::space_for. -/
def ShipCargo.space_for (c : ShipCargo) (resource : Resource) : Real :=
  (c.capacity - c.usage) / resource.volume

/-- In-flight bookkeeping, from src/ship/navigation.rs (struct FlightData). -/
structure FlightData where
  start : SpaceCoord
  destination : SpaceCoord
  delta : Real × Real × Real
  direction : Real × Real × Real
  dist_done : Real
  dist_tot : Real

/-- Costs of a planned travel, from src/ship/navigation.rs
(struct TravelCost). -/
structure TravelCost where
  direction : Real × Real × Real
  distance : Real
  duration : Real
  fuel_consumption : Real
  hull_usage : Real

/-- A travel request, from src/ship/navigation.rs (struct Travel). -/
structure Travel where
  destination : SpaceCoord

/-- Ship activity states, from src/ship.rs (enum ShipState).  The
Extracting payload (the extraction rate table) is irrelevant to the
verified claims and is omitted. -/
inductive ShipState where
  | Idle
  | InFlight (data : FlightData)
  | Extracting

/-- A ship, from src/ship.rs (struct Ship).  The crew BTreeMap is a
function into Option; modules keep only the fields the claims read. -/
structure Ship where
  id : Nat
  reactor_power : Nat
  fuel_tank_capacity : Real
  hull_decay_capacity : Real
  modules : List ShipModule
  position : SpaceCoord
  crew : Nat → Option CrewMember
  cargo : ShipCargo
  fuel_tank : Real
  hull_decay : Real
  pilot : Option Nat
  state : ShipState
  stats : ShipStats

/-- Sale price of a ship, from Ship::compute_price:
300 per reactor power, 3 per fuel tank capacity, 10 per cargo capacity,
5 per hull decay capacity, plus the total cost of installed modules. -/
def Ship.compute_price (s : Ship) : Real :=
  (s.reactor_power : Real) * 300 + s.fuel_tank_capacity * 3 + s.cargo.capacity * 10 +
    s.hull_decay_capacity * 5 + (s.modules.map ShipModule.totalcost).sum

/-- Recompute the derived stats from crew and reactor, from
Ship::update_perf_stats (testing feature disabled).  The source unwraps
the pilot lookup in the crew map; a ship invariant guarantees the pilot id
is present, and the model uses getD with a default rank-1 pilot for the
impossible branch. -/
def Ship.update_perf_stats (s : Ship) : Ship :=
  let fuel_consumption := (s.reactor_power : Real)
  let stats : ShipStats :=
    match s.pilot with
    | some pid =>
      let pilot := (s.crew pid).getD ⟨.Pilot, 1⟩
      let totshare : Real := 5 * 10
      { fuel_consumption := fuel_consumption * ((totshare - (pilot.rank : Real)) / totshare)
        speed := (s.reactor_power : Real) * 50 * (pilot.rank : Real)
        hull_usage_rate := 5 / 100 }
    | none =>
      { fuel_consumption := fuel_consumption
        speed := 0
        hull_usage_rate := 5 / 100 }
  { s with stats := { stats with speed := stats.speed * (1 - s.cargo.slowing_ratio) } }

/-- Compute the costs of a travel for a given ship, from
Travel::compute_costs: rejected without a pilot, rejected at distance zero,
otherwise duration = distance / speed, fuel = fuel_consumption rate times
duration, hull wear = hull_usage_rate times distance. -/
def Travel.compute_costs (t : Travel) (ship : Ship) : Except Errcode TravelCost :=
  if ship.pilot = none then .error .NoPilotAssigned
  else
    let distance := get_distance ship.position t.destination
    if distance = 0 then .error .NullDistance
    else
      let direction := get_direction ship.position t.destination
      let time_secs := distance / ship.stats.speed
      .ok
        { direction := direction
          distance := distance
          duration := time_secs
          fuel_consumption := ship.stats.fuel_consumption * time_secs
          hull_usage := ship.stats.hull_usage_rate * distance }

/-- Budget check of a planned travel, from TravelCost::have_enough. -/
def TravelCost.have_enough (cost : TravelCost) (ship : Ship) : Prop :=
  ship.fuel_tank ≥ cost.fuel_consumption ∧
    ship.hull_decay_capacity - ship.hull_decay ≥ cost.hull_usage

/-- Initial in-flight bookkeeping, from FlightData::new. -/
def FlightData.new (start : SpaceCoord) (cost : TravelCost) (travel : Travel) :
    FlightData :=
  { dist_done := 0
    dist_tot := cost.distance
    direction := cost.direction
    delta := get_delta start travel.destination
    destination := travel.destination
    start := start }

/-- Start a flight, from Ship::set_travel: requires the Idle state, then
the computed costs, then the budget check; only on success does the state
change. -/
def Ship.set_travel (s : Ship) (destination : SpaceCoord) :
    Except Errcode TravelCost × Ship :=
  match s.state with
  | .Idle =>
    let travel : Travel := ⟨destination⟩
    match travel.compute_costs s with
    | .error e => (.error e, s)
    | .ok cost =>
      if cost.have_enough s then
        (.ok cost, { s with state := .InFlight (FlightData.new s.position cost travel) })
      else (.error .CannotPerformTravel, s)
  | _ => (.error .ShipNotIdle, s)

/-- One tick of an in-flight ship, from Ship::update_flight.  Advances
dist_done by speed times tdelta, clamping at dist_tot (shrinking the
effective tdelta proportionally and marking the flight finished), then
deducts fuel (clamping at 0 and reporting true when exhausted), then adds
hull wear (reporting true when the hull is worn out), and finally
recomputes the position.  Any state other than InFlight is unreachable at
the single call site and is returned unchanged. -/
def Ship.update_flight (s : Ship) (tdelta : Real) : Ship × Bool :=
  match s.state with
  | .InFlight data =>
    let dist_delta0 := s.stats.speed * tdelta
    let dd0 := data.dist_done + dist_delta0
    let over := dd0 > data.dist_tot
    let doverflow := if over then dd0 - data.dist_tot else 0
    let dist_done := dd0 - doverflow
    let dist_delta := dist_delta0 - doverflow
    let tdelta2 := tdelta - (if over then doverflow / s.stats.speed else 0)
    let finished := over
    let data2 := { data with dist_done := dist_done }
    let fuel := s.fuel_tank - s.stats.fuel_consumption * tdelta2
    if fuel ≤ 0 then
      ({ s with fuel_tank := 0, state := .InFlight data2 }, true)
    else
      let hull := s.hull_decay + s.stats.hull_usage_rate * dist_delta
      if hull ≥ s.hull_decay_capacity then
        ({ s with fuel_tank := fuel, hull_decay := hull, state := .InFlight data2 }, true)
      else
        ({ s with
            fuel_tank := fuel
            hull_decay := hull
            position := translation data2.start data2.direction dist_done
            state := .InFlight data2 }, finished)
  | _ => (s, false)

/-- Tick width of the simulation driver, from src/game.rs
(ITER_PERIOD = 50 ms). -/
def ITER_PERIOD_SECS : Real := 0.05

/-- The per-ship InFlight arm of one driver tick, from Game::threadloop
(including the deadship collection that follows the loop): step the
flight; when it reports done, the ship goes Idle, and it is destroyed
(removed, ShipDestroyed) exactly when its hull decay reached capacity,
otherwise kept with a ShipFlightFinished event.  The returned option is
the ship's roster entry after the tick. -/
def threadloop_flight_step (s : Ship) (tdelta : Real) : Option Ship × List SyslogEvent :=
  match s.state with
  | .InFlight _ =>
    let res := s.update_flight tdelta
    if res.2 then
      let s2 : Ship := { res.1 with state := .Idle }
      if s2.hull_decay ≥ s2.hull_decay_capacity then (none, [.ShipDestroyed s.id])
      else (some s2, [.ShipFlightFinished s.id])
    else (some res.1, [])
  | _ => (some s, [])

/-- The commodity market, from src/market.rs (struct Market): one current
price per resource. -/
structure Market where
  prices : Resource → Real

/-- Initial market, from Market::init: every price at its base price. -/
def Market.init : Market := ⟨fun r => r.base_price⟩

/-- New price of a resource after one drift step, from
Market::get_new_price.  The source samples change from
Normal(mu, sigma) with mu = (1 - price / base_price) * 0.02 and
sigma = abs mu + 0.02, whose support is all of the reals; the sampled
change is the explicit last argument here.  No guard is applied to the
product. -/
def Market.get_new_price (_m : Market) (_r : Resource) (old : Real) (change : Real) :
    Real :=
  old * (1 + change)

/-- One drift update of all prices, from Market::update_prices.  The
source flips an independent 0.65 coin per resource and samples a change
for the selected ones; changes r = some c models a selected resource with
sampled change c, none models a skipped one. -/
def Market.update_prices (m : Market) (changes : Resource → Option Real) : Market :=
  ⟨fun r =>
    match changes r with
    | some c => m.get_new_price r (m.prices r) c
    | none => m.prices r⟩

/-- Fee rate of a trader, from src/market.rs (fn fee_rate):
0.20 divided by rank to the power 1.3. -/
def fee_rate (rank : Nat) : Real := (20 / 100) / (rank : Real) ^ (1.3 : Real)

/-- Result of one market transaction, from src/market.rs (struct MarketTx). -/
structure MarketTx where
  added_cargo : Option (Resource × Real)
  removed_cargo : Option (Resource × Real)
  added_money : Option Real
  removed_money : Option Real
  fees : Real

/-- A market buy, from Market::buy: the buyer is charged the full
pre-fee cost amnt * price, the fee-reduced quantity amnt * (1 - fee) is
destined for the cargo, and the price is bumped by the sampled factor
1 + inc (the source draws inc uniformly from
[0.75 * x, x] with x = amnt * price / 10000 * 0.20; it is the explicit
last argument here).  The source asserts amnt > 0 and price > 0 on
entry. -/
def Market.buy (m : Market) (trader : CrewMember) (r : Resource) (amnt : Real)
    (inc : Real) : MarketTx × Market :=
  let fee := fee_rate trader.rank
  let amnt_wfee := amnt * (1 - fee)
  let price := m.prices r
  let fees := amnt * fee * price
  ({ added_cargo := some (r, amnt_wfee)
     removed_cargo := none
     added_money := none
     removed_money := some (amnt * price)
     fees := fees },
   ⟨fun r2 => if r2 = r then price * (1 + inc) else m.prices r2⟩)

/-- A station, from src/galaxy/station.rs (struct Station).  Crew
BTreeMaps are functions into Option. -/
structure Station where
  id : Nat
  position : SpaceCoord
  idle_crew : Nat → Option CrewMember
  crew : Nat → Option CrewMember
  shipyard : List Ship
  cargo : ShipCargo
  trader : Option Nat

/-- Price per unit of station cargo expansion, from Station::cargo_price:
2 to the real power (capacity - 1000) / 1000 (CARGO_BASE_PRICE = 2,
STATION_INIT_CARGO = 1000, CARGO_PRICE_INCDIV = 1000). -/
def Station.cargo_price (st : Station) : Real :=
  (2 : Real) ^ ((st.cargo.capacity - 1000) / 1000)

/-- A player, from src/player.rs (struct Player).  The key, name and
station list are irrelevant to the verified claims; ships is the
BTreeMap ShipId to Ship as a function into Option. -/
structure Player where
  id : Nat
  lost : Bool
  money : Real
  costs : Real
  ships : Nat → Option Ship

/-- Buy station cargo capacity, from Station::buy_cargo: cost is
amnt * cargo_price, rejected when it exceeds the player's money,
otherwise deducted while the capacity grows by exactly amnt. -/
def Station.buy_cargo (st : Station) (p : Player) (amnt : Nat) :
    Except Errcode (Player × Station) :=
  let cost := (amnt : Real) * st.cargo_price
  if cost > p.money then .error (.NotEnoughMoney p.money cost)
  else
    .ok ({ p with money := p.money - cost },
      { st with cargo := { st.cargo with capacity := st.cargo.capacity + (amnt : Real) } })

/-- A station market buy, from Station::buy_resource: requires a trader,
clamps the amount to the cargo space, rejects a zero clamped amount with
BuyNothing, then executes the market buy, deducts the full pre-fee cost
from the player's money with no balance check, and stores the fee-reduced
quantity in the station cargo.  The source unwraps the trader's crew
entry and the two Option fields of the transaction (always present for a
buy); the model reads them with getD. -/
def Station.buy_resource (st : Station) (r : Resource) (amnt : Real) (p : Player)
    (m : Market) (inc : Real) : Except Errcode (MarketTx × Player × Station × Market) :=
  match st.trader with
  | none => .error .NoTraderAssigned
  | some trader =>
    let cm := (st.crew trader).getD ⟨.Trader, 1⟩
    let can_cargo := st.cargo.space_for r
    let amnt2 := min amnt can_cargo
    if amnt2 = 0 then .error .BuyNothing
    else
      let res := m.buy cm r amnt2 inc
      let money := p.money - (res.1.removed_money.getD 0)
      let ac := res.1.added_cargo.getD (r, 0)
      let add := st.cargo.add_resource ac.1 ac.2
      .ok (res.1, { p with money := money }, { st with cargo := add.2 }, res.2)

/-- The enumerate-and-match scan of Player::buy_ship over the shipyard:
the source for loop records (index, price) for every ship whose id
matches, so the last match wins. -/
def shipyard_scan (id : Nat) : List Ship → Nat → Option (Nat × Real) → Option (Nat × Real)
  | [], _, acc => acc
  | sh :: rest, n, acc =>
    shipyard_scan id rest (n + 1) (if sh.id = id then some (n, sh.compute_price) else acc)

/-- Buy a ship from the shipyard, from Player::buy_ship: find the ship by
id (ShipNotFound otherwise), reject when the price exceeds the money,
otherwise remove it from the shipyard, recompute its stats, fill its fuel
tank, deduct the price, insert it into the player's roster under the
requested id, and append a fresh random ship (the RNG-generated
replacement is the explicit fresh argument).  The source indexes the
shipyard with the scanned index, which is always in range; the model
returns ShipNotFound on the impossible out-of-range branch. -/
def Player.buy_ship (p : Player) (station : Station) (id : Nat) (fresh : Ship) :
    Except Errcode (Nat × Player × Station) :=
  match shipyard_scan id station.shipyard 0 none with
  | none => .error (.ShipNotFound id)
  | some (index, price) =>
    if price > p.money then .error (.NotEnoughMoney p.money price)
    else
      match station.shipyard.get? index with
      | none => .error (.ShipNotFound id)
      | some ship0 =>
        let ship1 := ship0.update_perf_stats
        let ship : Ship := { ship1 with fuel_tank := ship1.fuel_tank_capacity }
        .ok (ship0.id,
          { p with
              money := p.money - price
              ships := fun k => if k = id then some ship else p.ships k },
          { station with shipyard := station.shipyard.eraseIdx index ++ [fresh] })

/-- One wage tick of a player, from Player::update_money: bill
costs * tdelta, emit LowFunds when the balance first drops below 60
seconds of costs (with money / costs seconds left), and on the first time
the balance goes negative set the sticky lost flag and emit GameLost. -/
def Player.update_money (p : Player) (tdelta : Real) : Player × List SyslogEvent :=
  let before := p.money < p.costs * 60
  let money := p.money - p.costs * tdelta
  let after := money < p.costs * 60
  let lowfunds : List SyslogEvent :=
    if after ∧ ¬before then [.LowFunds (money / p.costs)] else []
  if money < 0 ∧ p.lost = false then
    ({ p with money := money, lost := true }, lowfunds ++ [.GameLost])
  else ({ p with money := money }, lowfunds)

/-- A sequence of wage ticks (Player::update_money applied repeatedly by
Game::threadloop), keeping only the player state. -/
def Player.update_money_seq (p : Player) (ts : List Real) : Player :=
  ts.foldl (fun q t => (q.update_money t).1) p

/-- The authentication gate of every mutating request handler, from the
get_player macro in simeis-server/src/api.rs: after resolving the key to
a player, a player whose lost flag is set is rejected with PlayerLost
before the handler body runs.  The key and id lookups (NoPlayerKey,
NoPlayerWithKey) are orthogonal to the verified claim and not modelled. -/
def get_player_gate (p : Player) : Except Errcode Player :=
  if p.lost then .error .PlayerLost else .ok p

/-- Unload ship cargo into the docked station, from Ship::unload_cargo:
withdraw from the ship hold, return zero if nothing came out, otherwise
deposit into the station hold and put the non-accepted remainder back
into the ship hold.  The source always returns Ok, so the model returns
the unloaded quantity directly along with both new states. -/
def Ship.unload_cargo (s : Ship) (resource : Resource) (amnt : Real)
    (station : Station) : Real × Ship × Station :=
  let u := s.cargo.unload resource amnt
  if u.1 = 0 then (0, { s with cargo := u.2 }, station)
  else
    let a := station.cargo.add_resource resource u.1
    if a.1 < u.1 then
      let b := u.2.add_resource resource (u.1 - a.1)
      (a.1, { s with cargo := b.2 }, { station with cargo := a.2 })
    else (u.1, { s with cargo := u.2 }, { station with cargo := a.2 })

/-- Stored quantity of a resource in a cargo hold, reading the BTreeMap
entry with 0 for an absent key (observer used to state stock
conservation). -/
def ShipCargo.stock (c : ShipCargo) (r : Resource) : Real :=
  (c.resources r).getD 0

/-- The tier-0 shipyard ship, from Ship::light: reactor 1, fuel tank 1000,
cargo 500, hull 3000, remaining fields from Default. -/
def Ship.light (id : Nat) (position : SpaceCoord) : Ship :=
  { id := id
    position := position
    reactor_power := 1
    fuel_tank_capacity := 1000
    cargo := ShipCargo.with_capacity 500
    hull_decay_capacity := 3000
    modules := []
    crew := fun _ => none
    fuel_tank := 0
    hull_decay := 0
    pilot := none
    state := .Idle
    stats := ⟨0, 0, 0⟩ }

/-- The tier-1 shipyard ship, from Ship::medium. -/
def Ship.medium (id : Nat) (position : SpaceCoord) : Ship :=
  { id := id
    position := position
    reactor_power := 3
    fuel_tank_capacity := 2000
    cargo := ShipCargo.with_capacity 1000
    hull_decay_capacity := 6000
    modules := []
    crew := fun _ => none
    fuel_tank := 0
    hull_decay := 0
    pilot := none
    state := .Idle
    stats := ⟨0, 0, 0⟩ }

/-- The tier-2 shipyard ship, from Ship::heavy. -/
def Ship.heavy (id : Nat) (position : SpaceCoord) : Ship :=
  { id := id
    position := position
    reactor_power := 10
    fuel_tank_capacity := 4000
    cargo := ShipCargo.with_capacity 3000
    hull_decay_capacity := 20000
    modules := []
    crew := fun _ => none
    fuel_tank := 0
    hull_decay := 0
    pilot := none
    state := .Idle
    stats := ⟨0, 0, 0⟩ }

/-- Concrete in-flight bookkeeping used by the flight-termination witness:
a flight from the origin to (3,4,0) (distance 5) with 4 units done. -/
def fixtureFlightData : FlightData :=
  { start := (0, 0, 0)
    destination := (3, 4, 0)
    delta := get_delta (0, 0, 0) (3, 4, 0)
    direction := get_direction (0, 0, 0) (3, 4, 0)
    dist_done := 4
    dist_tot := get_distance (0, 0, 0) (3, 4, 0) }

/-- Concrete in-flight ship used by the flight-termination witness. -/
def fixtureFlightShip : Ship :=
  { id := 1
    reactor_power := 1
    fuel_tank_capacity := 1000
    hull_decay_capacity := 100
    modules := []
    position := (0, 0, 0)
    crew := fun _ => none
    cargo := ShipCargo.with_capacity 500
    fuel_tank := 10
    hull_decay := 0
    pilot := some 7
    state := .InFlight fixtureFlightData
    stats := { speed := 2, fuel_consumption := 2, hull_usage_rate := 5 / 100 } }

/-- Concrete idle ship used by the set_travel witness. -/
def fixtureIdleShip : Ship :=
  { id := 2
    reactor_power := 1
    fuel_tank_capacity := 1000
    hull_decay_capacity := 100
    modules := []
    position := (0, 0, 0)
    crew := fun _ => none
    cargo := ShipCargo.with_capacity 500
    fuel_tank := 10
    hull_decay := 0
    pilot := some 7
    state := .Idle
    stats := { speed := 5, fuel_consumption := 2, hull_usage_rate := 5 / 100 } }

/-- Concrete flight data of the fuel-exhaustion scenario. -/
def fixtureFuelDeathData : FlightData :=
  { start := (0, 0, 0)
    destination := (500, 0, 0)
    delta := (500, 0, 0)
    direction := (1, 0, 0)
    dist_done := 0
    dist_tot := 500 }

/-- Concrete in-flight ship that exhausts its fuel on the next tick: one
tick consumes 0.05 units of fuel but only 0.01 are left. -/
def fixtureFuelDeathShip : Ship :=
  { id := 1
    reactor_power := 1
    fuel_tank_capacity := 1000
    hull_decay_capacity := 100
    modules := []
    position := (0, 0, 0)
    crew := fun _ => none
    cargo := ShipCargo.with_capacity 500
    fuel_tank := 0.01
    hull_decay := 0
    pilot := some 7
    state := .InFlight fixtureFuelDeathData
    stats := { speed := 1, fuel_consumption := 1, hull_usage_rate := 5 / 100 } }

/-- Concrete station with a full three-ship shipyard (ids 11, 12, 13). -/
def fixtureYardStation : Station :=
  { id := 1
    position := (0, 0, 0)
    idle_crew := fun _ => none
    crew := fun _ => none
    shipyard := [Ship.light 11 (0, 0, 0), Ship.medium 12 (0, 0, 0), Ship.heavy 13 (0, 0, 0)]
    cargo := ShipCargo.with_capacity 1000
    trader := none }

/-- Concrete replacement ship pushed into the shipyard after a buy
(stands for the RNG-generated Ship::random). -/
def fixtureFreshShip : Ship := Ship.light 99 (0, 0, 0)

/-- Concrete new player with the initial 30000 money. -/
def fixtureBuyer : Player :=
  { id := 4
    lost := false
    money := 30000
    costs := 0
    ships := fun _ => none }

/-- Concrete player whose lost flag is already set. -/
def fixtureLostPlayer : Player :=
  { id := 5
    lost := true
    money := -3
    costs := 5
    ships := fun _ => none }

/-- Concrete solvent-but-doomed player: one wage tick of 1 second at
costs 100 drives its money of 1 negative. -/
def fixtureBrokePlayer : Player :=
  { id := 6
    lost := false
    money := 1
    costs := 100
    ships := fun _ => none }

/-- Concrete station at the initial 1000 cargo capacity. -/
def fixtureBaseStation : Station :=
  { id := 2
    position := (0, 0, 0)
    idle_crew := fun _ => none
    crew := fun _ => none
    shipyard := []
    cargo := ShipCargo.with_capacity 1000
    trader := none }

/-- Concrete station with an assigned rank-1 trader and empty cargo. -/
def fixtureBuyStation : Station :=
  { id := 3
    position := (0, 0, 0)
    idle_crew := fun _ => none
    crew := fun k => if k = 5 then some ⟨.Trader, 1⟩ else none
    shipyard := []
    cargo := ShipCargo.with_capacity 1000
    trader := some 5 }

/-- Concrete player with 10 money, far less than the market buy below
costs. -/
def fixturePoorPlayer : Player :=
  { id := 7
    lost := false
    money := 10
    costs := 0
    ships := fun _ => none }

/-- Concrete drift outcome: the 0.65 coin selects Stone with sampled
change -2 (inside the support of the Normal distribution) and skips every
other resource. -/
def fixtureDriftChanges : Resource → Option Real :=
  fun r => if r = .Stone then some (-2) else none

/-- Concrete docked ship whose full cargo (capacity 18, 9 units of Fuel at
volume 2) exhibits the rounding loss of unload_cargo. -/
def fixtureUnloadShip : Ship :=
  { id := 3
    reactor_power := 1
    fuel_tank_capacity := 1000
    hull_decay_capacity := 100
    modules := []
    position := (0, 0, 0)
    crew := fun _ => none
    cargo := { capacity := 18, usage := 18,
               resources := fun r => if r = .Fuel then some 9 else none }
    fuel_tank := 10
    hull_decay := 0
    pilot := none
    state := .Idle
    stats := ⟨0, 0, 0⟩ }

/-- Concrete station whose cargo is exactly full (capacity 1000 filled by
500 units of Fuel at volume 2), accepting nothing. -/
def fixtureFullStation : Station :=
  { id := 4
    position := (0, 0, 0)
    idle_crew := fun _ => none
    crew := fun _ => none
    shipyard := []
    cargo := { capacity := 1000, usage := 1000,
               resources := fun r => if r = .Fuel then some 500 else none }
    trader := none }

/-- Concrete docked ship (capacity 18, 8.5 units of Fuel, usage 17) for
the exact-conservation witness of unload_cargo. -/
def fixtureUnloadShip2 : Ship :=
  { id := 5
    reactor_power := 1
    fuel_tank_capacity := 1000
    hull_decay_capacity := 100
    modules := []
    position := (0, 0, 0)
    crew := fun _ => none
    cargo := { capacity := 18, usage := 17,
               resources := fun r => if r = .Fuel then some 8.5 else none }
    fuel_tank := 10
    hull_decay := 0
    pilot := none
    state := .Idle
    stats := ⟨0, 0, 0⟩ }

/-- Concrete station with one unit of cargo room left (capacity 1000,
usage 999) for the exact-conservation witness of unload_cargo. -/
def fixtureAlmostFullStation : Station :=
  { id := 5
    position := (0, 0, 0)
    idle_crew := fun _ => none
    crew := fun _ => none
    shipyard := []
    cargo := { capacity := 1000, usage := 999,
               resources := fun r => if r = .Fuel then some 500 else none }
    trader := none }

end

theorem Fifo.rep_new (T : Type) : (Fifo.new T).Rep [] := by
  simp [Fifo.new, Fifo.Rep, SYSLOG_FIFO_MAX_SIZE]

theorem Fifo.Rep.push {T : Type} {f : Fifo T} {l : List T} (h : f.Rep l) (x : T) :
    (f.push x).Rep (modelPush l x) := by
  obtain ⟨hlen10, hpop, hflen, hl10, hpush, hwin⟩ := h
  simp only [SYSLOG_FIFO_MAX_SIZE] at hlen10 hpop hl10 hpush hwin
  by_cases hfull : l.length < 10
  · have hcond : ¬(0 < f.len ∧ f.push_ind = f.pop_ind) := by
      rintro ⟨h1, h2⟩
      rw [hpush] at h2
      omega
    have hpushx : f.push x =
        ⟨f.list.set f.push_ind (some x), (f.push_ind + 1) % 10, f.pop_ind, f.len + 1⟩ := by
      simp only [Fifo.push, SYSLOG_FIFO_MAX_SIZE, if_neg hcond]
      rw [Nat.min_eq_left (by omega)]
    have hmp : modelPush l x = l ++ [x] := by
      simp [modelPush, SYSLOG_FIFO_MAX_SIZE, hfull]
    rw [hpushx, hmp]
    refine ⟨by simp [hlen10, SYSLOG_FIFO_MAX_SIZE], by simpa [SYSLOG_FIFO_MAX_SIZE] using hpop,
      by simp [hflen], by simp [SYSLOG_FIFO_MAX_SIZE]; omega,
      by simp only [SYSLOG_FIFO_MAX_SIZE]; rw [hpush]; omega, ?_⟩
    intro i hi
    simp only [SYSLOG_FIFO_MAX_SIZE]
    simp only [List.length_append, List.length_cons, List.length_nil] at hi
    by_cases hil : i < l.length
    · rw [List.getElem?_set_ne (by rw [hpush]; omega)]
      rw [hwin i hil, List.getElem?_append_left hil]
    · have hieq : i = l.length := by omega
      subst hieq
      have hidx : (f.pop_ind + l.length) % 10 = f.push_ind := by rw [hpush, hflen]
      rw [hidx, List.getElem?_set_eq_of_lt (some x) (by rw [hlen10, hpush]; omega)]
      rw [List.getElem?_concat_length]
  · have hfull10 : l.length = 10 := by omega
    have hlenf : f.len = 10 := by rw [hflen, hfull10]
    have hpp : f.push_ind = f.pop_ind := by rw [hpush, hlenf]; omega
    have hcond : 0 < f.len ∧ f.push_ind = f.pop_ind := ⟨by omega, hpp⟩
    have hpushx : f.push x =
        ⟨f.list.set f.push_ind (some x), (f.push_ind + 1) % 10, (f.pop_ind + 1) % 10, 10⟩ := by
      simp only [Fifo.push, SYSLOG_FIFO_MAX_SIZE, if_pos hcond]
      rw [Nat.min_eq_right (by omega)]
    have hlne : l ≠ [] := by
      intro hl
      rw [hl] at hfull10
      simp at hfull10
    have htail : l.tail.length = 9 := by
      rw [List.length_tail, hfull10]
    have hmp : modelPush l x = l.tail ++ [x] := by
      simp [modelPush, SYSLOG_FIFO_MAX_SIZE, hfull]
    rw [hpushx, hmp]
    refine ⟨by simp [hlen10, SYSLOG_FIFO_MAX_SIZE], by simp [SYSLOG_FIFO_MAX_SIZE]; omega,
      by simp [htail], by simp [htail, SYSLOG_FIFO_MAX_SIZE],
      by simp only [SYSLOG_FIFO_MAX_SIZE]; omega, ?_⟩
    intro i hi
    simp only [SYSLOG_FIFO_MAX_SIZE]
    simp only [List.length_append, htail, List.length_cons, List.length_nil] at hi
    have hidx : ((f.pop_ind + 1) % 10 + i) % 10 = (f.pop_ind + 1 + i) % 10 := by omega
    rw [hidx]
    by_cases hi9 : i < 9
    · rw [List.getElem?_set_ne (show f.push_ind ≠ (f.pop_ind + 1 + i) % 10 by rw [hpp]; omega)]
      have hi1 : (f.pop_ind + 1 + i) % 10 = (f.pop_ind + (i + 1)) % 10 := by omega
      rw [hi1, hwin (i + 1) (by omega)]
      have hrhs : l[i + 1]? = (l.tail ++ [x])[i]? := by
        rw [List.getElem?_append_left (by omega), ← List.drop_one, List.getElem?_drop]
        congr 1
        omega
      rw [hrhs]
    · have hieq : i = 9 := by omega
      subst hieq
      have hidx2 : (f.pop_ind + 1 + 9) % 10 = f.pop_ind := by omega
      rw [hidx2, ← hpp, List.getElem?_set_eq_of_lt (some x) (by rw [hlen10, hpp]; omega)]
      have hrhs : (l.tail ++ [x])[(9 : Nat)]? = some x := by
        rw [show (9 : Nat) = l.tail.length by rw [htail], List.getElem?_concat_length]
      rw [hrhs]

theorem Fifo.Rep.pop_cons {T : Type} {f : Fifo T} {a : T} {l : List T}
    (h : f.Rep (a :: l)) : (f.pop).1 = some a ∧ (f.pop).2.Rep l := by
  obtain ⟨hlen10, hpop, hflen, hl10, hpush, hwin⟩ := h
  simp only [SYSLOG_FIFO_MAX_SIZE] at hlen10 hpop hl10 hpush hwin
  simp only [List.length_cons] at hflen hl10
  have hne : ¬f.len = 0 := by omega
  have hslot : f.list[f.pop_ind]? = some (some a) := by
    have h0 := hwin 0 (by simp)
    simpa [Nat.mod_eq_of_lt hpop] using h0
  have hpopx : f.pop = (some a,
      ⟨f.list.set f.pop_ind none, f.push_ind, (f.pop_ind + 1) % 10, f.len - 1⟩) := by
    simp only [Fifo.pop, SYSLOG_FIFO_MAX_SIZE, if_neg hne, hslot]
    rfl
  have h2 : (f.pop).2 =
      ⟨f.list.set f.pop_ind none, f.push_ind, (f.pop_ind + 1) % 10, f.len - 1⟩ := by
    rw [hpopx]
  refine ⟨by rw [hpopx], ?_⟩
  rw [h2]
  refine ⟨by simp [hlen10, SYSLOG_FIFO_MAX_SIZE], by simp [SYSLOG_FIFO_MAX_SIZE]; omega,
    by show f.len - 1 = l.length; omega, by simp only [SYSLOG_FIFO_MAX_SIZE]; omega,
    by simp only [SYSLOG_FIFO_MAX_SIZE]; show f.push_ind = _; rw [hpush]; omega, ?_⟩
  intro i hi
  simp only [SYSLOG_FIFO_MAX_SIZE]
  have hidx : ((f.pop_ind + 1) % 10 + i) % 10 = (f.pop_ind + (i + 1)) % 10 := by omega
  rw [hidx, List.getElem?_set_ne (by omega), hwin (i + 1) (by simp; omega)]
  simp

theorem Fifo.Rep.drain {T : Type} {l : List T} :
    ∀ {f : Fifo T}, f.Rep l → (f.remove_all).1 = l ∧ (f.remove_all).2.len = 0 := by
  induction l with
  | nil =>
    intro f h
    have hflen : f.len = 0 := h.2.2.1
    simp [Fifo.remove_all, hflen, Fifo.removeAllAux]
  | cons a l ih =>
    intro f h
    have hflen : f.len = l.length + 1 := by simpa using h.2.2.1
    obtain ⟨hgot, hrep⟩ := h.pop_cons
    have hlen1 : (f.pop).2.len = l.length := by simpa using hrep.2.2.1
    obtain ⟨ih1, ih2⟩ := ih hrep
    simp only [Fifo.remove_all, hlen1] at ih1 ih2
    simp only [Fifo.remove_all, hflen, Fifo.removeAllAux]
    rw [show f.pop = ((f.pop).1, (f.pop).2) from rfl, hgot]
    simp [ih1, ih2]

theorem Fifo.Rep.pushAll_rep {T : Type} (evs : List T) :
    ∀ {f : Fifo T} {l : List T}, f.Rep l → (f.pushAll evs).Rep (evs.foldl modelPush l) := by
  induction evs with
  | nil => intro f l h; exact h
  | cons x evs ih =>
    intro f l h
    exact ih (h.push x)

theorem modelPush_foldl {T : Type} (evs : List T) :
    ∀ acc : List T, acc.length ≤ SYSLOG_FIFO_MAX_SIZE →
      evs.foldl modelPush acc =
        (acc ++ evs).drop (acc.length + evs.length - SYSLOG_FIFO_MAX_SIZE) := by
  simp only [SYSLOG_FIFO_MAX_SIZE]
  induction evs with
  | nil =>
    intro acc hacc
    simp only [List.length_nil, List.append_nil, List.foldl_nil]
    rw [show acc.length + 0 - 10 = 0 by omega, List.drop_zero]
  | cons x evs ih =>
    intro acc hacc
    simp only [List.foldl_cons, List.length_cons]
    by_cases hfull : acc.length < 10
    · have hmp : modelPush acc x = acc ++ [x] := by
        simp [modelPush, SYSLOG_FIFO_MAX_SIZE, hfull]
      rw [hmp, ih (acc ++ [x]) (by simp; omega)]
      simp only [List.length_append, List.length_cons, List.length_nil, List.append_assoc,
        List.singleton_append]
      congr 1
      omega
    · have hfull10 : acc.length = 10 := by omega
      have hlne : acc ≠ [] := by
        intro hl
        rw [hl] at hfull10
        simp at hfull10
      have hmp : modelPush acc x = acc.tail ++ [x] := by
        simp [modelPush, SYSLOG_FIFO_MAX_SIZE, hfull]
      rw [hmp, ih (acc.tail ++ [x]) (by simp [List.length_tail, hfull10])]
      have htail : acc.tail.length = 9 := by rw [List.length_tail, hfull10]
      simp only [List.length_append, htail, List.length_cons, List.length_nil, hfull10,
        List.append_assoc, List.singleton_append]
      rw [show (9 + 1 + evs.length - 10) = evs.length by omega,
        show (10 + (evs.length + 1) - 10) = evs.length + 1 by omega]
      conv_rhs => rw [← List.head_cons_tail acc hlne]
      rw [List.cons_append, List.drop_succ_cons]


section

open scoped Classical

theorem rpow_two_eq (x : Real) : x ^ (2 : Real) = x ^ (2 : Nat) := by
  rw [← Real.rpow_natCast x 2]
  norm_num

theorem get_distance_eq (a b : SpaceCoord) :
    get_distance a b =
      Real.sqrt (((b.1 : Real) - (a.1 : Real)) ^ (2 : Nat) +
        ((b.2.1 : Real) - (a.2.1 : Real)) ^ (2 : Nat) +
        ((b.2.2 : Real) - (a.2.2 : Real)) ^ (2 : Nat)) := by
  simp only [get_distance, get_delta, rpow_two_eq]

theorem get_distance_eq_zero_iff (a b : SpaceCoord) : get_distance a b = 0 ↔ a = b := by
  obtain ⟨a1, a2, a3⟩ := a
  obtain ⟨b1, b2, b3⟩ := b
  rw [get_distance_eq, Real.sqrt_eq_zero']
  constructor
  · intro h
    have hle : ((b1 : Real) - a1) ^ (2:Nat) + ((b2 : Real) - a2) ^ (2:Nat) +
        ((b3 : Real) - a3) ^ (2:Nat) ≤ 0 := h
    have h1 : ((b1 : Real) - a1) = 0 := by
      nlinarith [sq_nonneg ((b1 : Real) - a1), sq_nonneg ((b2 : Real) - a2),
        sq_nonneg ((b3 : Real) - a3), hle]
    have h2 : ((b2 : Real) - a2) = 0 := by
      nlinarith [sq_nonneg ((b1 : Real) - a1), sq_nonneg ((b2 : Real) - a2),
        sq_nonneg ((b3 : Real) - a3), hle]
    have h3 : ((b3 : Real) - a3) = 0 := by
      nlinarith [sq_nonneg ((b1 : Real) - a1), sq_nonneg ((b2 : Real) - a2),
        sq_nonneg ((b3 : Real) - a3), hle]
    have e1 : a1 = b1 := by exact_mod_cast (sub_eq_zero.mp h1).symm
    have e2 : a2 = b2 := by exact_mod_cast (sub_eq_zero.mp h2).symm
    have e3 : a3 = b3 := by exact_mod_cast (sub_eq_zero.mp h3).symm
    simp [e1, e2, e3]
  · intro h
    injection h with h1 h23
    injection h23 with h2 h3
    subst h1; subst h2; subst h3
    simp

theorem translation_exact {a b : SpaceCoord} (h : a ≠ b) :
    translation a (get_direction a b) (get_distance a b) = b := by
  have hd0 : get_distance a b ≠ 0 := fun hz => h ((get_distance_eq_zero_iff a b).mp hz)
  obtain ⟨a1, a2, a3⟩ := a
  obtain ⟨b1, b2, b3⟩ := b
  simp only [translation, get_direction, get_delta, Prod.mk.injEq]
  refine ⟨?_, ?_, ?_⟩
  · have hx : (a1 : Real) + get_distance (a1, a2, a3) (b1, b2, b3) *
        (((b1 : Real) - a1) / get_distance (a1, a2, a3) (b1, b2, b3)) = (b1 : Real) := by
      field_simp
    rw [hx, Int.floor_natCast]
    simp
  · have hx : (a2 : Real) + get_distance (a1, a2, a3) (b1, b2, b3) *
        (((b2 : Real) - a2) / get_distance (a1, a2, a3) (b1, b2, b3)) = (b2 : Real) := by
      field_simp
    rw [hx, Int.floor_natCast]
    simp
  · have hx : (a3 : Real) + get_distance (a1, a2, a3) (b1, b2, b3) *
        (((b3 : Real) - a3) / get_distance (a1, a2, a3) (b1, b2, b3)) = (b3 : Real) := by
      field_simp
    rw [hx, Int.floor_natCast]
    simp

theorem get_distance_345 : get_distance (0, 0, 0) (3, 4, 0) = 5 := by
  rw [get_distance_eq]
  norm_num
  rw [show (25 : Real) = 5 ^ 2 by norm_num]
  exact Real.sqrt_sq (by norm_num)

/-- Claim C1 (counterexample): at a concrete in-flight ship whose fuel
runs out on the tick (fuel 0.01, consumption rate 1, tick 0.05 s), the
driver tick clamps the fuel to 0 but emits ShipFlightFinished, not
ShipDestroyed, and keeps the ship in the roster, contradicting the claim
that fuel exhaustion destroys and removes the ship. -/
theorem C1_fuel_death_counterexample :
    (threadloop_flight_step fixtureFuelDeathShip ITER_PERIOD_SECS).2 =
      [SyslogEvent.ShipFlightFinished 1] ∧
    Option.map Ship.fuel_tank (threadloop_flight_step fixtureFuelDeathShip ITER_PERIOD_SECS).1 =
      some 0 ∧
    ((threadloop_flight_step fixtureFuelDeathShip ITER_PERIOD_SECS).1).isSome = true := by
  norm_num [threadloop_flight_step, Ship.update_flight, fixtureFuelDeathShip,
    fixtureFuelDeathData, ITER_PERIOD_SECS]

/-- Claim C1 (amended): for every ship in flight whose hull is not already
worn out, if a tick's fuel deduction brings fuel_tank to 0 or below, the
tick clamps fuel_tank to 0 and ends the flight, but the ship stays in the
owning player's roster and the tick emits ShipFlightFinished for it (not
ShipDestroyed, which together with roster removal happens only when
hull_decay reaches hull_decay_capacity). -/
theorem C1_fuel_death_amended (s : Ship) (data : FlightData) (t : Real)
    (hst : s.state = .InFlight data)
    (hhull : s.hull_decay < s.hull_decay_capacity)
    (hfuel : s.fuel_tank - s.stats.fuel_consumption *
      (t - (if data.dist_done + s.stats.speed * t > data.dist_tot
            then (data.dist_done + s.stats.speed * t - data.dist_tot) / s.stats.speed
            else 0)) ≤ 0) :
    threadloop_flight_step s t =
      (some { s with fuel_tank := 0, state := .Idle },
       [SyslogEvent.ShipFlightFinished s.id]) := by
  simp only [threadloop_flight_step, Ship.update_flight, hst]
  by_cases hover : data.dist_done + s.stats.speed * t > data.dist_tot
  · simp only [hover, ite_true] at hfuel ⊢
    rw [if_pos hfuel]
    simp only [ite_true]
    rw [if_neg (not_le.mpr hhull)]
  · simp only [hover, ite_false] at hfuel ⊢
    rw [if_pos hfuel]
    simp only [ite_true]
    rw [if_neg (not_le.mpr hhull)]

/-- Claim C1 (witness): the amended statement applied to the concrete
fuel-exhausting ship at the 50 ms tick. -/
theorem C1_fuel_death_witness :
    threadloop_flight_step fixtureFuelDeathShip ITER_PERIOD_SECS =
      (some { fixtureFuelDeathShip with fuel_tank := 0, state := .Idle },
       [SyslogEvent.ShipFlightFinished fixtureFuelDeathShip.id]) :=
  C1_fuel_death_amended fixtureFuelDeathShip fixtureFuelDeathData ITER_PERIOD_SECS rfl
    (by norm_num [fixtureFuelDeathShip])
    (by norm_num [fixtureFuelDeathShip, fixtureFuelDeathData, ITER_PERIOD_SECS])

/-- Claim C3: for every flight that terminates normally on a tick (the
update reports finished with fuel left and hull not worn out), the ship
position after that tick is exactly the flight destination.  The direction
and total distance hypotheses record how FlightData is built by set_travel
from the start and destination, and a flight never starts with zero
distance (the NullDistance guard). -/
theorem C3_flight_termination_exact
    (s : Ship) (data : FlightData) (t : Real)
    (hst : s.state = .InFlight data)
    (hdir : data.direction = get_direction data.start data.destination)
    (hdist : data.dist_tot = get_distance data.start data.destination)
    (hne : data.start ≠ data.destination)
    (hfin : (s.update_flight t).2 = true)
    (hfuel : 0 < (s.update_flight t).1.fuel_tank)
    (hhull : (s.update_flight t).1.hull_decay < s.hull_decay_capacity) :
    (s.update_flight t).1.position = data.destination := by
  simp only [Ship.update_flight, hst] at hfin hfuel hhull ⊢
  split_ifs at hfin hfuel hhull ⊢
  all_goals simp_all
  all_goals first
    | linarith
    | exact translation_exact hne

/-- Claim C3 (witness): a concrete flight from the origin to (3,4,0) at
speed 2 overshoots the remaining distance on a 1 s tick and lands exactly
on the destination. -/
theorem C3_flight_termination_witness :
    (fixtureFlightShip.update_flight 1).1.position = (3, 4, 0) :=
  C3_flight_termination_exact fixtureFlightShip fixtureFlightData 1 rfl rfl rfl (by decide)
    (by simp only [fixtureFlightShip, fixtureFlightData, Ship.update_flight, get_distance_345]
        norm_num)
    (by simp only [fixtureFlightShip, fixtureFlightData, Ship.update_flight, get_distance_345]
        norm_num)
    (by simp only [fixtureFlightShip, fixtureFlightData, Ship.update_flight, get_distance_345]
        norm_num)

/-- Claim C8: set_travel fails with ShipNotIdle when the state is not
Idle, NoPilotAssigned without a pilot, NullDistance when the destination
equals the position, CannotPerformTravel when the fuel or hull budget is
insufficient, leaving the ship unchanged on every error; otherwise it
succeeds with the computed TravelCost and puts the ship InFlight. -/
theorem C8_set_travel_characterization (s : Ship) (dest : SpaceCoord) :
    ((¬ s.state = ShipState.Idle) → s.set_travel dest = (.error .ShipNotIdle, s)) ∧
    (s.state = ShipState.Idle → s.pilot = none →
      s.set_travel dest = (.error .NoPilotAssigned, s)) ∧
    (s.state = ShipState.Idle → s.pilot ≠ none → dest = s.position →
      s.set_travel dest = (.error .NullDistance, s)) ∧
    (s.state = ShipState.Idle → s.pilot ≠ none → dest ≠ s.position →
      (s.fuel_tank < s.stats.fuel_consumption * (get_distance s.position dest / s.stats.speed) ∨
        s.hull_decay_capacity - s.hull_decay <
          s.stats.hull_usage_rate * get_distance s.position dest) →
      s.set_travel dest = (.error .CannotPerformTravel, s)) ∧
    (s.state = ShipState.Idle → s.pilot ≠ none → dest ≠ s.position →
      s.fuel_tank ≥ s.stats.fuel_consumption * (get_distance s.position dest / s.stats.speed) →
      s.hull_decay_capacity - s.hull_decay ≥
        s.stats.hull_usage_rate * get_distance s.position dest →
      s.set_travel dest =
        (.ok { direction := get_direction s.position dest
               distance := get_distance s.position dest
               duration := get_distance s.position dest / s.stats.speed
               fuel_consumption :=
                 s.stats.fuel_consumption * (get_distance s.position dest / s.stats.speed)
               hull_usage := s.stats.hull_usage_rate * get_distance s.position dest },
         { s with state := .InFlight (FlightData.new s.position
             { direction := get_direction s.position dest
               distance := get_distance s.position dest
               duration := get_distance s.position dest / s.stats.speed
               fuel_consumption :=
                 s.stats.fuel_consumption * (get_distance s.position dest / s.stats.speed)
               hull_usage := s.stats.hull_usage_rate * get_distance s.position dest }
             ⟨dest⟩) })) := by
  refine ⟨?_, ?_, ?_, ?_, ?_⟩
  · intro hst
    cases hs : s.state with
    | Idle => exact absurd hs hst
    | InFlight data => simp [Ship.set_travel, hs]
    | Extracting => simp [Ship.set_travel, hs]
  · intro hst hpil
    simp [Ship.set_travel, hst, Travel.compute_costs, hpil]
  · intro hst hpil hdd
    have hz : get_distance s.position dest = 0 := by
      rw [get_distance_eq_zero_iff]
      exact hdd.symm
    simp [Ship.set_travel, hst, Travel.compute_costs, hpil, hz]
  · intro hst hpil hdd hbudget
    have hz : ¬ get_distance s.position dest = 0 := by
      rw [get_distance_eq_zero_iff]
      exact fun h => hdd h.symm
    have henough : ¬ TravelCost.have_enough
        { direction := get_direction s.position dest
          distance := get_distance s.position dest
          duration := get_distance s.position dest / s.stats.speed
          fuel_consumption :=
            s.stats.fuel_consumption * (get_distance s.position dest / s.stats.speed)
          hull_usage := s.stats.hull_usage_rate * get_distance s.position dest } s := by
      simp only [TravelCost.have_enough, not_and_or, not_le]
      rcases hbudget with h | h
      · exact Or.inl (by simpa using h)
      · exact Or.inr (by simpa using h)
    simp [Ship.set_travel, hst, Travel.compute_costs, hpil, hz, henough]
  · intro hst hpil hdd hfuel hhull
    have hz : ¬ get_distance s.position dest = 0 := by
      rw [get_distance_eq_zero_iff]
      exact fun h => hdd h.symm
    have henough : TravelCost.have_enough
        { direction := get_direction s.position dest
          distance := get_distance s.position dest
          duration := get_distance s.position dest / s.stats.speed
          fuel_consumption :=
            s.stats.fuel_consumption * (get_distance s.position dest / s.stats.speed)
          hull_usage := s.stats.hull_usage_rate * get_distance s.position dest } s :=
      ⟨hfuel, hhull⟩
    simp [Ship.set_travel, hst, Travel.compute_costs, hpil, hz, henough]

/-- Claim C8 (witness): the success branch applied to a concrete idle
piloted ship travelling from the origin to (3,4,0). -/
theorem C8_set_travel_witness :
    fixtureIdleShip.set_travel (3, 4, 0) =
      (.ok { direction := get_direction fixtureIdleShip.position (3, 4, 0)
             distance := get_distance fixtureIdleShip.position (3, 4, 0)
             duration := get_distance fixtureIdleShip.position (3, 4, 0) / fixtureIdleShip.stats.speed
             fuel_consumption := fixtureIdleShip.stats.fuel_consumption *
               (get_distance fixtureIdleShip.position (3, 4, 0) / fixtureIdleShip.stats.speed)
             hull_usage := fixtureIdleShip.stats.hull_usage_rate *
               get_distance fixtureIdleShip.position (3, 4, 0) },
       { fixtureIdleShip with state := .InFlight (FlightData.new fixtureIdleShip.position
           { direction := get_direction fixtureIdleShip.position (3, 4, 0)
             distance := get_distance fixtureIdleShip.position (3, 4, 0)
             duration := get_distance fixtureIdleShip.position (3, 4, 0) / fixtureIdleShip.stats.speed
             fuel_consumption := fixtureIdleShip.stats.fuel_consumption *
               (get_distance fixtureIdleShip.position (3, 4, 0) / fixtureIdleShip.stats.speed)
             hull_usage := fixtureIdleShip.stats.hull_usage_rate *
               get_distance fixtureIdleShip.position (3, 4, 0) }
           ⟨(3, 4, 0)⟩) }) :=
  (C8_set_travel_characterization fixtureIdleShip (3, 4, 0)).2.2.2.2 rfl
    (by simp [fixtureIdleShip])
    (by simp only [fixtureIdleShip]; decide)
    (by simp only [fixtureIdleShip]
        rw [show ((0, 0, 0) : SpaceCoord) = ((0, 0, 0) : SpaceCoord) from rfl, get_distance_345]
        norm_num)
    (by simp only [fixtureIdleShip]
        rw [show ((0, 0, 0) : SpaceCoord) = ((0, 0, 0) : SpaceCoord) from rfl, get_distance_345]
        norm_num)

/-- Claim C2 (code bug): Market::update_prices applies price *= 1 + change
with no guard: a sampled change of -2 on Stone at its base price 3.5 leaves
the stored price at -3.5, which is not strictly positive, violating the
spec requirement to resample or floor (and the assert price > 0 that
Market::buy would then hit).  The last conjunct shows the update rule has
no rejection branch for any resource or sampled change. -/
theorem C2_market_positivity_bug :
    (Market.init.update_prices fixtureDriftChanges).prices .Stone = -(7 / 2) ∧
    ¬ 0 < (Market.init.update_prices fixtureDriftChanges).prices .Stone ∧
    (∀ m : Market, ∀ changes : Resource → Option Real, ∀ r : Resource,
      (m.update_prices changes).prices r =
        match changes r with
        | some c => m.prices r * (1 + c)
        | none => m.prices r) := by
  refine ⟨?_, ?_, ?_⟩
  · norm_num [Market.update_prices, Market.init, Market.get_new_price, fixtureDriftChanges,
      Resource.base_price]
  · norm_num [Market.update_prices, Market.init, Market.get_new_price, fixtureDriftChanges,
      Resource.base_price]
  · intro m changes r
    simp only [Market.update_prices, Market.get_new_price]

/-- Claim C6: once a player's lost flag is true it stays true across any
sequence of wage ticks (the only code that writes it) and the request
authentication gate answers PlayerLost for it; and on the wage tick where
money first goes negative the flag is set together with a GameLost
event. -/
theorem C6_player_lost_sticky (p : Player) (ts : List Real) :
    (p.lost = true → (p.update_money_seq ts).lost = true ∧
      get_player_gate (p.update_money_seq ts) = .error .PlayerLost) ∧
    (∀ t : Real, p.lost = false → (p.update_money t).1.money < 0 →
      (p.update_money t).1.lost = true ∧ SyslogEvent.GameLost ∈ (p.update_money t).2) := by
  constructor
  · intro hlost
    have hmono : ∀ (q : Player) (t : Real), q.lost = true → ((q.update_money t).1).lost = true := by
      intro q t hq
      simp only [Player.update_money]
      split_ifs <;> simp [hq]
    have hseq : (p.update_money_seq ts).lost = true := by
      induction ts generalizing p with
      | nil => exact hlost
      | cons t ts ih =>
        simp only [Player.update_money_seq, List.foldl_cons] at ih ⊢
        exact ih _ (hmono p t hlost)
    exact ⟨hseq, by simp [get_player_gate, hseq]⟩
  · intro t hlost hneg
    have hm : (p.update_money t).1.money = p.money - p.costs * t := by
      simp only [Player.update_money]
      split_ifs <;> rfl
    rw [hm] at hneg
    have hcond : p.money - p.costs * t < 0 ∧ p.lost = false := ⟨hneg, hlost⟩
    constructor
    · simp only [Player.update_money]
      rw [if_pos hcond]
    · simp only [Player.update_money]
      rw [if_pos hcond]
      simp

/-- Claim C6 (witness): a concrete lost player stays lost over two wage
ticks and is rejected by the gate; a concrete solvent player is marked
lost with a GameLost event on the tick that drives its money negative. -/
theorem C6_player_lost_witness :
    (fixtureLostPlayer.update_money_seq [1, 2]).lost = true ∧
    get_player_gate (fixtureLostPlayer.update_money_seq [1, 2]) = .error .PlayerLost ∧
    (fixtureBrokePlayer.update_money 1).1.lost = true ∧
    SyslogEvent.GameLost ∈ (fixtureBrokePlayer.update_money 1).2 := by
  have h1 := (C6_player_lost_sticky fixtureLostPlayer [1, 2]).1 rfl
  have h2 := (C6_player_lost_sticky fixtureBrokePlayer []).2 1 rfl
    (by norm_num [Player.update_money, fixtureBrokePlayer])
  exact ⟨h1.1, h1.2, h2.1, h2.2⟩

/-- Claim C7 (counterexample): at the initial station capacity 1000 the
code price per unit is 2^((1000-1000)/1000) = 1, not the claimed
2 * 2^((capacity-1000)/1000) = 2. -/
theorem C7_cargo_price_counterexample :
    fixtureBaseStation.cargo_price = 1 ∧
    fixtureBaseStation.cargo_price ≠
      2 * (2 : Real) ^ ((fixtureBaseStation.cargo.capacity - 1000) / 1000) := by
  have h1 : fixtureBaseStation.cargo_price = 1 := by
    simp [Station.cargo_price, fixtureBaseStation, ShipCargo.with_capacity]
  have h2 : ((1000 : Real) - 1000) / 1000 = 0 := by norm_num
  refine ⟨h1, ?_⟩
  rw [h1]
  simp only [fixtureBaseStation, ShipCargo.with_capacity]
  rw [h2, Real.rpow_zero]
  norm_num

/-- Claim C7 (amended): the cargo expansion price per unit equals
2^((capacity-1000)/1000) (without the leading factor 2), so buying amnt
units costs amnt * 2^((capacity-1000)/1000), is rejected exactly when that
cost exceeds the player's money, and on success deducts the cost and
increases the station's cargo capacity by exactly amnt. -/
theorem C7_cargo_price_amended (st : Station) (p : Player) (amnt : Nat) :
    (st.cargo_price = (2 : Real) ^ ((st.cargo.capacity - 1000) / 1000)) ∧
    ((amnt : Real) * st.cargo_price ≤ p.money →
      st.buy_cargo p amnt =
        .ok ({ p with money := p.money - (amnt : Real) * st.cargo_price },
          { st with cargo := { st.cargo with capacity := st.cargo.capacity + (amnt : Real) } })) ∧
    (p.money < (amnt : Real) * st.cargo_price →
      st.buy_cargo p amnt = .error (.NotEnoughMoney p.money ((amnt : Real) * st.cargo_price))) := by
  refine ⟨rfl, ?_, ?_⟩
  · intro h
    simp only [Station.buy_cargo]
    rw [if_neg (not_lt.mpr h)]
  · intro h
    simp only [Station.buy_cargo]
    rw [if_pos h]

/-- Claim C7 (witness): buying 5 capacity units at the base station (price
per unit 1) from a player with 30000 money. -/
theorem C7_cargo_price_witness :
    fixtureBaseStation.buy_cargo fixtureBuyer 5 =
      .ok ({ fixtureBuyer with money := fixtureBuyer.money - (5 : Real) * fixtureBaseStation.cargo_price },
        { fixtureBaseStation with cargo := { fixtureBaseStation.cargo with
            capacity := fixtureBaseStation.cargo.capacity + (5 : Real) } }) :=
  (C7_cargo_price_amended fixtureBaseStation fixtureBuyer 5).2.1
    (by have h1 : fixtureBaseStation.cargo_price = 1 := by
          simp [Station.cargo_price, fixtureBaseStation, ShipCargo.with_capacity]
        rw [h1]
        norm_num [fixtureBuyer])


/-- Soundness of the shipyard scan loop of Player::buy_ship: a returned
(index, price) pair either came straight from the accumulator or from a
ship of the list whose id matches, stored at that index with its computed
price. -/
theorem shipyard_scan_sound (id : Nat) :
    ∀ (l : List Ship) (n : Nat) (acc : Option (Nat × Real)) (i : Nat) (pr : Real),
      shipyard_scan id l n acc = some (i, pr) →
      acc = some (i, pr) ∨
      ∃ k sh, l.get? k = some sh ∧ i = n + k ∧ sh.id = id ∧ pr = sh.compute_price := by
  intro l
  induction l with
  | nil =>
    intro n acc i pr h
    exact Or.inl (by simpa [shipyard_scan] using h)
  | cons sh rest ih =>
    intro n acc i pr h
    simp only [shipyard_scan] at h
    rcases ih (n + 1) _ i pr h with hacc | ⟨k, sh2, hget, hik, hid, hpr⟩
    · by_cases hsh : sh.id = id
      · rw [if_pos hsh] at hacc
        have h1 : n = i ∧ sh.compute_price = pr := by
          simpa using hacc
        exact Or.inr ⟨0, sh, by simp, by omega, hsh, h1.2.symm⟩
      · rw [if_neg hsh] at hacc
        exact Or.inl hacc
    · exact Or.inr ⟨k + 1, sh2, by simpa using hget, by omega, hid, hpr⟩

/-- Claim C4: a successful buy_ship removes the ship found by id from the
shipyard and appends the fresh random replacement (so a 3-ship shipyard
again holds exactly 3), tops the bought ship's fuel tank up to its
capacity, deducts exactly compute_price (300 per reactor power + 3 per
fuel capacity + 10 per cargo capacity + 5 per hull capacity + module
costs), and inserts the ship into player.ships under the requested id. -/
theorem C4_buy_ship (p : Player) (st : Station) (id : Nat) (fresh : Ship) (i : Nat) (price : Real)
    (hscan : shipyard_scan id st.shipyard 0 none = some (i, price))
    (hmoney : price ≤ p.money) :
    ∃ sh, st.shipyard.get? i = some sh ∧ sh.id = id ∧ price = sh.compute_price ∧
      p.buy_ship st id fresh =
        .ok (id,
          { p with
              money := p.money - price
              ships := fun k => if k = id then
                  some { sh.update_perf_stats with fuel_tank := sh.fuel_tank_capacity }
                else p.ships k },
          { st with shipyard := st.shipyard.eraseIdx i ++ [fresh] }) ∧
      (st.shipyard.length = 3 → (st.shipyard.eraseIdx i ++ [fresh]).length = 3) := by
  rcases shipyard_scan_sound id st.shipyard 0 none i price hscan with hacc | ⟨k, sh, hget, hik, hid, hpr⟩
  · exact absurd hacc (by simp)
  · have hi : i = k := by omega
    subst hi
    have hlt : i < st.shipyard.length := by
      rcases List.get?_eq_some.mp hget with ⟨hl, _⟩
      exact hl
    refine ⟨sh, hget, hid, hpr, ?_, ?_⟩
    · simp only [Player.buy_ship, hscan]
      rw [if_neg (not_lt.mpr hmoney)]
      rw [hget]
      simp only [hid, hpr]
      rfl
    · intro h3
      rw [List.length_append, List.length_eraseIdx]
      simp [h3]
      omega

/-- Claim C4 (witness): buying the tier-0 ship (reactor 1, fuel 1000,
cargo 500, hull 3000) for 23300 from a 30000-money player leaves 6700. -/
theorem C4_buy_ship_witness :
    (∃ sh, fixtureYardStation.shipyard.get? 0 = some sh ∧ sh.id = 11 ∧
      (23300 : Real) = sh.compute_price ∧
      fixtureBuyer.buy_ship fixtureYardStation 11 fixtureFreshShip =
        .ok (11,
          { fixtureBuyer with
              money := fixtureBuyer.money - 23300
              ships := fun k => if k = 11 then
                  some { sh.update_perf_stats with fuel_tank := sh.fuel_tank_capacity }
                else fixtureBuyer.ships k },
          { fixtureYardStation with
              shipyard := fixtureYardStation.shipyard.eraseIdx 0 ++ [fixtureFreshShip] }) ∧
      (fixtureYardStation.shipyard.length = 3 →
        (fixtureYardStation.shipyard.eraseIdx 0 ++ [fixtureFreshShip]).length = 3)) ∧
    (30000 : Real) - 23300 = 6700 :=
  ⟨C4_buy_ship fixtureBuyer fixtureYardStation 11 fixtureFreshShip 0 23300
    (by simp only [fixtureYardStation, shipyard_scan, Ship.light, Ship.medium, Ship.heavy,
                   Ship.compute_price, ShipCargo.with_capacity]
        norm_num)
    (by norm_num [fixtureBuyer]),
   by norm_num⟩

/-- Claim C9: Station::buy_resource can only fail with NoTraderAssigned
or BuyNothing, never NotEnoughMoney; on success it deducts the full
pre-fee cost (clamped amount times current price) from the player's money
without any balance check, so the balance can go negative (the concrete
witness exhibits a purchase that does). -/
theorem C9_buy_resource_unchecked (st : Station) (r : Resource) (amnt : Real)
    (p : Player) (m : Market) (inc : Real) :
    (∀ e, st.buy_resource r amnt p m inc = .error e →
      e = Errcode.NoTraderAssigned ∨ e = Errcode.BuyNothing) ∧
    (∀ trader, st.trader = some trader → ¬ min amnt (st.cargo.space_for r) = 0 →
      st.buy_resource r amnt p m inc =
        .ok ((m.buy ((st.crew trader).getD ⟨.Trader, 1⟩) r (min amnt (st.cargo.space_for r)) inc).1,
          { p with money := p.money - min amnt (st.cargo.space_for r) * m.prices r },
          { st with cargo := (st.cargo.add_resource r
              (min amnt (st.cargo.space_for r) *
                (1 - fee_rate ((st.crew trader).getD ⟨.Trader, 1⟩).rank))).2 },
          (m.buy ((st.crew trader).getD ⟨.Trader, 1⟩) r (min amnt (st.cargo.space_for r)) inc).2)) := by
  constructor
  · intro e he
    unfold Station.buy_resource at he
    cases htr : st.trader with
    | none =>
      rw [htr] at he
      simp only at he
      exact Or.inl (Except.error.inj he).symm
    | some trader =>
      rw [htr] at he
      simp only at he
      split_ifs at he with h
      · exact Or.inr (Except.error.inj he).symm
  · intro trader htr hmin
    simp only [Station.buy_resource, htr]
    rw [if_neg hmin]
    simp only [Market.buy, Option.getD_some]

/-- Claim C9 (witness): a player with 10 money buys 40 units of Fuel at
price 5 through a rank-1 trader; the purchase succeeds and leaves the
balance at 10 - 200 < 0. -/
theorem C9_buy_resource_witness :
    fixtureBuyStation.buy_resource .Fuel 40 fixturePoorPlayer Market.init 0 =
      .ok ((Market.init.buy ((fixtureBuyStation.crew 5).getD ⟨.Trader, 1⟩) .Fuel
              (min 40 (fixtureBuyStation.cargo.space_for .Fuel)) 0).1,
        { fixturePoorPlayer with
            money := fixturePoorPlayer.money -
              min 40 (fixtureBuyStation.cargo.space_for .Fuel) * Market.init.prices .Fuel },
        { fixtureBuyStation with
            cargo := (fixtureBuyStation.cargo.add_resource .Fuel
              (min 40 (fixtureBuyStation.cargo.space_for .Fuel) *
                (1 - fee_rate ((fixtureBuyStation.crew 5).getD ⟨.Trader, 1⟩).rank))).2 },
        (Market.init.buy ((fixtureBuyStation.crew 5).getD ⟨.Trader, 1⟩) .Fuel
            (min 40 (fixtureBuyStation.cargo.space_for .Fuel)) 0).2) ∧
    fixturePoorPlayer.money -
        min 40 (fixtureBuyStation.cargo.space_for .Fuel) * Market.init.prices .Fuel < 0 :=
  ⟨(C9_buy_resource_unchecked fixtureBuyStation .Fuel 40 fixturePoorPlayer Market.init 0).2 5 rfl
      (by norm_num [fixtureBuyStation, ShipCargo.space_for, ShipCargo.with_capacity,
        Resource.volume]),
    by norm_num [fixturePoorPlayer, fixtureBuyStation, ShipCargo.space_for,
      ShipCargo.with_capacity, Resource.volume, Market.init, Resource.base_price]⟩

/-- Claim C5: for every sequence of pushes into a fresh per-player event
FIFO, the buffer never holds more than 10 entries; draining returns
exactly the last min(n, 10) pushed entries oldest-first (a push onto a
full buffer overwrites the oldest) and leaves the buffer empty; and
pushing the 12 events 1..12 then draining yields events 3..12 in order. -/
theorem C5_fifo_bounded_drain :
    (∀ (T : Type) (evs : List T),
      ((Fifo.new T).pushAll evs).len ≤ SYSLOG_FIFO_MAX_SIZE ∧
      (((Fifo.new T).pushAll evs).remove_all).1 =
        evs.drop (evs.length - SYSLOG_FIFO_MAX_SIZE) ∧
      (((Fifo.new T).pushAll evs).remove_all).2.len = 0) ∧
    (((Fifo.new Nat).pushAll [1, 2, 3, 4, 5, 6, 7, 8, 9, 10, 11, 12]).remove_all).1 =
      [3, 4, 5, 6, 7, 8, 9, 10, 11, 12] := by
  constructor
  · intro T evs
    have hrep := Fifo.Rep.pushAll_rep evs (Fifo.rep_new T)
    have hmodel : evs.foldl modelPush [] = evs.drop (evs.length - SYSLOG_FIFO_MAX_SIZE) := by
      have h := modelPush_foldl evs [] (by simp)
      simpa using h
    have hdrain := Fifo.Rep.drain hrep
    refine ⟨?_, ?_, hdrain.2⟩
    · have h3 := hrep.2.2.1
      have h4 := hrep.2.2.2.1
      omega
    · rw [hdrain.1, hmodel]
  · decide

/-- Every resource has a strictly positive cargo volume. -/
theorem Resource.volume_pos (r : Resource) : 0 < r.volume := by
  cases r <;> norm_num [Resource.volume]

/-- ShipCargo::add_resource adds exactly its returned quantity to the
stored stock of the resource. -/
theorem add_resource_stock (c : ShipCargo) (res : Resource) (q : Real) :
    ((c.add_resource res q).2).stock res = c.stock res + (c.add_resource res q).1 := by
  simp only [ShipCargo.add_resource, ShipCargo.stock]
  split_ifs with h1 h2
  · simp
  · cases hr : c.resources res <;> simp [hr]
  · cases hr : c.resources res <;> simp [hr]

/-- ShipCargo::add_resource never deposits more than was offered (for a
non-negative offer). -/
theorem add_resource_le_amount (c : ShipCargo) (res : Resource) (q : Real)
    (hq : 0 ≤ q) : (c.add_resource res q).1 ≤ q := by
  simp only [ShipCargo.add_resource]
  split_ifs with h1 h2
  · simpa
  · simp only
    have hv := Resource.volume_pos res
    have hover : 0 < c.usage + res.volume * q - c.capacity := by linarith
    have : 0 < (c.usage + res.volume * q - c.capacity) / res.volume := div_pos hover hv
    linarith
  · simp

/-- ShipCargo::add_resource deposits the full offer when the hold is not
exactly full and the offer fits the remaining space. -/
theorem add_resource_exact (c : ShipCargo) (res : Resource) (q : Real)
    (hne : c.usage ≠ c.capacity) (hfit : q ≤ c.space_for res) :
    (c.add_resource res q).1 = q := by
  have hv := Resource.volume_pos res
  have hle : res.volume * q ≤ c.capacity - c.usage := by
    rw [ShipCargo.space_for] at hfit
    calc res.volume * q ≤ res.volume * ((c.capacity - c.usage) / res.volume) :=
          mul_le_mul_of_nonneg_left hfit (le_of_lt hv)
      _ = c.capacity - c.usage := by field_simp
  simp only [ShipCargo.add_resource]
  rw [if_neg hne, if_neg (not_lt.mpr (by linarith))]

/-- ShipCargo::unload removes a non-negative quantity and decreases the
stored stock by exactly that quantity. -/
theorem unload_facts (c : ShipCargo) (r : Resource) (amnt : Real)
    (h0 : 0 ≤ amnt) (hst : 0 ≤ c.stock r) :
    0 ≤ (c.unload r amnt).1 ∧
    (c.unload r amnt).2.stock r = c.stock r - (c.unload r amnt).1 := by
  simp only [ShipCargo.unload, ShipCargo.stock] at hst ⊢
  cases hr : c.resources r with
  | none => simp [hr]
  | some got =>
    rw [hr] at hst
    simp only [hr, Option.getD_some]
    constructor
    · exact le_min hst h0
    · simp

/-- Claim C10 (amended): for a non-negative request on a non-negative
stock, the value returned by unload_cargo always equals the quantity the
station actually accepted (the station stock grows by exactly the return
value); and the operation conserves the total stock of the resource
whenever the put-back fits the ship's free space left after the
three-decimal usage rounding (in particular whenever the rounding does
not shrink it).  Without that proviso the rounding can destroy up to
0.0005/volume(r) units, as the counterexample shows. -/
theorem C10_unload_cargo_amended (s : Ship) (st : Station) (r : Resource) (amnt : Real)
    (hq : 0 ≤ amnt) (hstock : 0 ≤ s.cargo.stock r) :
    ((s.unload_cargo r amnt st).2.2.cargo.stock r =
      st.cargo.stock r + (s.unload_cargo r amnt st).1) ∧
    (((s.cargo.unload r amnt).2.usage ≠ (s.cargo.unload r amnt).2.capacity) →
     ((s.cargo.unload r amnt).1 - (st.cargo.add_resource r (s.cargo.unload r amnt).1).1 ≤
        (s.cargo.unload r amnt).2.space_for r) →
     (s.unload_cargo r amnt st).2.1.cargo.stock r +
       (s.unload_cargo r amnt st).2.2.cargo.stock r =
       s.cargo.stock r + st.cargo.stock r) := by
  obtain ⟨hu0, hustock⟩ := unload_facts s.cargo r amnt hq hstock
  by_cases hz : (s.cargo.unload r amnt).1 = 0
  · simp only [Ship.unload_cargo]
    rw [if_pos hz]
    constructor
    · simp
    · intro _ _
      simp only
      rw [hustock, hz]
      ring
  · have ha_stock := add_resource_stock st.cargo r (s.cargo.unload r amnt).1
    have ha_le := add_resource_le_amount st.cargo r (s.cargo.unload r amnt).1 hu0
    simp only [Ship.unload_cargo]
    rw [if_neg hz]
    by_cases hlt : (st.cargo.add_resource r (s.cargo.unload r amnt).1).1 < (s.cargo.unload r amnt).1
    · rw [if_pos hlt]
      constructor
      · simp only
        exact ha_stock
      · intro hne hfit
        simp only
        have hb := add_resource_exact (s.cargo.unload r amnt).2 r
          ((s.cargo.unload r amnt).1 - (st.cargo.add_resource r (s.cargo.unload r amnt).1).1)
          hne hfit
        have hbstock := add_resource_stock (s.cargo.unload r amnt).2 r
          ((s.cargo.unload r amnt).1 - (st.cargo.add_resource r (s.cargo.unload r amnt).1).1)
        rw [hbstock, hb, hustock, ha_stock]
        ring
    · have heq : (st.cargo.add_resource r (s.cargo.unload r amnt).1).1 =
          (s.cargo.unload r amnt).1 := le_antisymm ha_le (not_lt.mp hlt)
      rw [if_neg hlt]
      constructor
      · simp only
        rw [ha_stock, heq]
      · intro _ _
        simp only
        rw [hustock, ha_stock, heq]
        ring

/-- Rounding fact used by the unload counterexample:
12000.6 rounds to 12001. -/
theorem round_12000_6 : round ((60003 : Real) / 5) = 12001 := by
  rw [round_eq]
  apply Int.floor_eq_iff.mpr
  constructor <;> norm_num

/-- Claim C10 (counterexample): unloading 2.9997 units of Fuel from a
full 18-capacity ship hold into an exactly full station rounds the ship
usage from 12.0006 up to 12.001, so the put-back is truncated to 2.9995
units and 0.0002 units of Fuel vanish: the total stock drops from 509 to
508.9998. -/
theorem C10_unload_cargo_counterexample :
    (fixtureUnloadShip.unload_cargo .Fuel 2.9997 fixtureFullStation).2.1.cargo.stock .Fuel +
      (fixtureUnloadShip.unload_cargo .Fuel 2.9997 fixtureFullStation).2.2.cargo.stock .Fuel ≠
    fixtureUnloadShip.cargo.stock .Fuel + fixtureFullStation.cargo.stock .Fuel := by
  have hmin : min (9 : Real) 2.9997 = 2.9997 := by norm_num
  have hmax : max ((18 : Real) - 2 * 2.9997) 0 = 12.0006 := by norm_num
  have harg : (max ((18 : Real) - 2 * 2.9997) 0) * 1000 = 12000.6 := by norm_num
  simp only [Ship.unload_cargo, ShipCargo.unload, ShipCargo.add_resource, ShipCargo.stock,
    ShipCargo.space_for, fixtureUnloadShip, fixtureFullStation, Resource.volume]
  norm_num [hmin, harg, round_12000_6]

/-- Rounding fact used by the unload witness: 13000 rounds to itself. -/
theorem round_13000 : round ((13000 : Real)) = 13000 := by
  rw [round_eq]
  apply Int.floor_eq_iff.mpr
  constructor <;> norm_num

/-- Claim C10 (witness): a partial unload whose put-back fits the
post-rounding free space conserves the Fuel stock exactly. -/
theorem C10_unload_cargo_witness :
    (fixtureUnloadShip2.unload_cargo .Fuel 2 fixtureAlmostFullStation).2.1.cargo.stock .Fuel +
      (fixtureUnloadShip2.unload_cargo .Fuel 2 fixtureAlmostFullStation).2.2.cargo.stock .Fuel =
    fixtureUnloadShip2.cargo.stock .Fuel + fixtureAlmostFullStation.cargo.stock .Fuel :=
  (C10_unload_cargo_amended fixtureUnloadShip2 fixtureAlmostFullStation .Fuel 2 (by norm_num)
      (by norm_num [ShipCargo.stock, fixtureUnloadShip2])).2
    (by simp only [ShipCargo.unload, fixtureUnloadShip2, Resource.volume]
        norm_num [round_13000])
    (by simp only [ShipCargo.unload, ShipCargo.add_resource, ShipCargo.space_for,
          fixtureUnloadShip2, fixtureAlmostFullStation, Resource.volume]
        norm_num [round_13000])
end

end Simeis
